import Mathlib

/-
  Verification of the Tuvok Lua scripting provenance layer.

  The development shallowly embeds the provenance ledger implemented in
  src/LUAScripting/LUAProvenance.cpp and the marshaling templates of
  LuaFunBinding.h (carried inside src/Renderer/GL/GLRenderer.cpp).
  State mutation is modelled by explicit state passing; a C++ throw is
  modelled by returning the state reached at the throw site together with
  the raised error, so that mutations preceding a throw are preserved.
-/

namespace Tuvok

/-- Errors raised by the provenance layer, mirroring the exception types of
LUAError.h as they are used in LUAProvenance.cpp.  The constructor
luaCallError stands for an error raised inside lua_call while replaying or
executing a registered function; vectorOutOfBounds marks the C++ undefined
behaviour of indexing mUndoRedoStack past its size (unreachable from states
satisfying the cursor invariant). -/
inductive LuaErr where
  | reenter
  | invalidUndo
  | invalidRedo
  | invalidUndoOrRedo
  | unknownFunction
  | luaCallError
  | vectorOutOfBounds
deriving DecidableEq, Repr

/-- An entry of mUndoRedoStack (struct UndoRedoItem in LUAProvenance.h):
the registered function name, the undo parameter snapshot (the last executed
parameters captured before the call) and the redo parameter snapshot (the
parameters the call was made with). -/
structure UndoRedoItem (P : Type) where
  function : String
  undoParams : P
  redoParams : P
deriving DecidableEq, Repr

/-- The mutable state of LuaProvenance together with the observable pieces of
the scripting runtime it manipulates: the native application state (of
abstract type S) and the per-function last-executed-parameter tables
(TBL_MD_FUN_LAST_EXEC), modelled as an association list keyed by function
name with parameter packs of abstract type P.  Field names and initial
values follow the LuaProvenance constructor. -/
structure ProvState (S P : Type) where
  mEnabled : Bool
  mStackPointer : Nat
  mLoggingProvenance : Bool
  mDoProvReenterException : Bool
  mUndoRedoProvenanceDisable : Bool
  mUndoRedoStack : List (UndoRedoItem P)
  native : S
  lastExec : List (String × P)
deriving DecidableEq, Repr

/-- A registered function as the provenance layer sees it: the effect of the
native callable on the observable native state (returning none models a
failure raised inside lua_call), the undo redo stack exemption flag stored
with the function table, and the default parameter pack the registration
installed (LuaStrictStack getDefault values). -/
structure LuaFunEntry (S P : Type) where
  apply : P → S → Option S
  undoRedoStackExempt : Bool
  defaults : P

/-- The function registry: resolves a fully qualified name to a registered
entry, none when no function table exists under that name. -/
def LuaRegistry (S P : Type) : Type := String → Option (LuaFunEntry S P)

/-- Reading of the last-exec table of a function: find the entry of the
association list keyed by the function name. -/
def lookupLastExec {P : Type} (le : List (String × P)) (f : String) : Option P :=
  (le.find? (fun kv => kv.1 == f)).map (fun kv => kv.2)

/-- Overwriting of the last-exec table of a function: replace the entry in
place when present, append it otherwise. -/
def setLastExec {P : Type} : List (String × P) → String → P → List (String × P)
  | [], f, p => [(f, p)]
  | kv :: rest, f, p =>
      if kv.1 = f then (f, p) :: rest else kv :: setLastExec rest f p

/-- LuaProvenance logExecution (LUAProvenance.cpp lines 135 to 234).  The
reentry guard is checked first; an undo or redo in flight suppresses logging;
an exempt call sets and immediately clears mLoggingProvenance (a net no-op on
the state, so the returned state is the input); otherwise the records at or
past the cursor are discarded, the undo snapshot is pulled from the last-exec
table into the default-constructed emptyParams pack, the new record is
appended, the cursor advances and the last-exec table is overwritten with the
parameters of this call. -/
def logExecution {S P : Type} (fname : String) (undoRedoStackExempt : Bool)
    (funParams emptyParams : P) (s : ProvState S P) :
    ProvState S P × Option LuaErr :=
  if s.mLoggingProvenance then
    if s.mDoProvReenterException then
      (s, some LuaErr.reenter)
    else
      (s, none)
  else if s.mUndoRedoProvenanceDisable then
    (s, none)
  else if undoRedoStackExempt then
    (s, none)
  else
    let truncated := s.mUndoRedoStack.take s.mStackPointer
    let undoParams := (lookupLastExec s.lastExec fname).getD emptyParams
    ({ s with
        mUndoRedoStack := truncated ++ [⟨fname, undoParams, funParams⟩],
        mStackPointer := s.mStackPointer + 1,
        lastExec := setLastExec s.lastExec fname funParams }, none)

/-- LuaProvenance performUndoRedoOp (LUAProvenance.cpp lines 285 to 357).
A missing function table raises LuaProvenanceInvalidUndoOrRedo.  Otherwise
mUndoRedoProvenanceDisable is set, the function is invoked through lua_call
(the callback of the invoked function notifies logExecution, which the
disable flag suppresses; an error raised there propagates and, as in the
C++, leaves the disable flag set), the flag is cleared and the last-exec
table of the function is overwritten with the replayed parameters. -/
def performUndoRedoOp {S P : Type} (R : LuaRegistry S P) (funcName : String)
    (params : P) (s : ProvState S P) : ProvState S P × Option LuaErr :=
  match R funcName with
  | none => (s, some LuaErr.invalidUndoOrRedo)
  | some entry =>
    let s1 : ProvState S P := { s with mUndoRedoProvenanceDisable := true }
    match entry.apply params s1.native with
    | none => (s1, some LuaErr.luaCallError)
    | some nat2 =>
      let afterLog :=
        logExecution funcName entry.undoRedoStackExempt params entry.defaults
          { s1 with native := nat2 }
      match afterLog.2 with
      | some e => (afterLog.1, some e)
      | none =>
        let s3 : ProvState S P :=
          { afterLog.1 with mUndoRedoProvenanceDisable := false }
        ({ s3 with lastExec := setLastExec s3.lastExec funcName params }, none)

/-- LuaProvenance issueUndo (LUAProvenance.cpp lines 237 to 258).  A cursor
at the bottom of the stack raises LuaProvenanceInvalidUndo; otherwise the
record below the cursor is replayed with its undo parameter snapshot, a
LuaProvenanceInvalidUndoOrRedo raised by the replay is caught and rethrown
wrapped as LuaProvenanceInvalidUndo (other errors propagate unwrapped), and
only after a successful replay is the cursor decremented. -/
def issueUndo {S P : Type} (R : LuaRegistry S P) (s : ProvState S P) :
    ProvState S P × Option LuaErr :=
  if s.mStackPointer = 0 then
    (s, some LuaErr.invalidUndo)
  else
    match s.mUndoRedoStack[s.mStackPointer - 1]? with
    | none => (s, some LuaErr.vectorOutOfBounds)
    | some undoItem =>
      match performUndoRedoOp R undoItem.function undoItem.undoParams s with
      | (s1, some LuaErr.invalidUndoOrRedo) => (s1, some LuaErr.invalidUndo)
      | (s1, some e) => (s1, some e)
      | (s1, none) => ({ s1 with mStackPointer := s1.mStackPointer - 1 }, none)

/-- LuaProvenance issueRedo (LUAProvenance.cpp lines 261 to 282).  A cursor
at the top of the stack raises LuaProvenanceInvalidRedo; otherwise the record
at the cursor is replayed with its redo parameter snapshot, a wrapped
LuaProvenanceInvalidUndoOrRedo is rethrown as LuaProvenanceInvalidRedo, and
only after a successful replay is the cursor incremented. -/
def issueRedo {S P : Type} (R : LuaRegistry S P) (s : ProvState S P) :
    ProvState S P × Option LuaErr :=
  if s.mStackPointer = s.mUndoRedoStack.length then
    (s, some LuaErr.invalidRedo)
  else
    match s.mUndoRedoStack[s.mStackPointer]? with
    | none => (s, some LuaErr.vectorOutOfBounds)
    | some redoItem =>
      match performUndoRedoOp R redoItem.function redoItem.redoParams s with
      | (s1, some LuaErr.invalidUndoOrRedo) => (s1, some LuaErr.invalidRedo)
      | (s1, some e) => (s1, some e)
      | (s1, none) => ({ s1 with mStackPointer := s1.mStackPointer + 1 }, none)

/-- LuaProvenance registerLuaProvenanceFunctions (LUAProvenance.cpp lines 82
to 114) as the list of registered names paired with whether the registration
marks the function undo redo stack exempt.  The first four registrations are
each followed by a setUndoRedoStackExempt call with value true; the fifth
registration, provenance.enableReentryException, has no such call and keeps
the default of not being exempt, as the closing code comment states that the
reentry exception does not need to be stack exempt. -/
def registerLuaProvenanceFunctions : List (String × Bool) :=
  [("provenance.undo", true),
   ("provenance.redo", true),
   ("provenance.enable", true),
   ("provenance.clear", true),
   ("provenance.enableReentryException", false)]

/-- Modelled from the spec: the function invocation path of the Function
Registry (LuaScripting.cpp and LuaFunBindingCore.h are not under src).  Per
the spec control flow and section 4.3, resolving an unknown name fails, the
native callable executes on the observable state, and on success the ledger
is notified through logExecution with the just-used parameters; the callback
passes a default-constructed parameter pack as emptyParams, which carries the
registration defaults. -/
def execCall {S P : Type} (R : LuaRegistry S P) (fname : String) (ps : P)
    (s : ProvState S P) : ProvState S P × Option LuaErr :=
  match R fname with
  | none => (s, some LuaErr.unknownFunction)
  | some entry =>
    match entry.apply ps s.native with
    | none => (s, some LuaErr.luaCallError)
    | some nat2 =>
      logExecution fname entry.undoRedoStackExempt ps entry.defaults
        { s with native := nat2 }

/-- Executes a list of script calls (function name and parameter pack) in
order through the invocation path. -/
def execSeq {S P : Type} (R : LuaRegistry S P) :
    List (String × P) → ProvState S P → ProvState S P
  | [], s => s
  | c :: cs, s => execSeq R cs (execCall R c.1 c.2 s).1

/-- Iterates issueUndo the given number of times. -/
def undoTimes {S P : Type} (R : LuaRegistry S P) :
    Nat → ProvState S P → ProvState S P
  | 0, s => s
  | k + 1, s => undoTimes R k (issueUndo R s).1

/-- The initial native state used by the concrete setter instantiation:
every slot starts at the int default of LuaStrictStack, which is zero. -/
def initNative : String → Int := fun _ => 0

/-- The provenance state right after the LuaProvenance constructor
(LUAProvenance.cpp lines 61 to 71): provenance enabled, cursor at zero,
reentry exception enabled, no records, empty last-exec data, native state at
the defaults. -/
def initState : ProvState (String → Int) Int :=
  { mEnabled := true
    mStackPointer := 0
    mLoggingProvenance := false
    mDoProvReenterException := true
    mUndoRedoProvenanceDisable := false
    mUndoRedoStack := []
    native := initNative
    lastExec := [] }

/-- The registry of non-exempt single-int setter functions, the shape the
repository registers through the bridge in its own provenance unit tests
(set_i1 and friends, each overwriting one named slot of the native state,
registered with the int default of zero and not stack exempt).  The history
linearity and round-trip properties quantify over sequences of such
registered mutator calls. -/
def setterRegistry : LuaRegistry (String → Int) Int := fun f =>
  some
    { apply := fun p st => some (Function.update st f p)
      undoRedoStackExempt := false
      defaults := 0 }

/-- Folds a call sequence over a native state, each call overwriting the slot
named by the called function with its parameter. -/
def applyCalls (cs : List (String × Int)) (t : String → Int) : String → Int :=
  cs.foldl (fun u c => Function.update u c.1 c.2) t

/-- The native state reached by executing a call sequence from the defaults. -/
def natOf (cs : List (String × Int)) : String → Int :=
  applyCalls cs initNative

/-- The undo redo records created by a call sequence, threaded with the
evolving last-executed snapshot: the record of a call stores as undo
parameter the value its slot held before the call. -/
def recsAux (pre : String → Int) : List (String × Int) → List (UndoRedoItem Int)
  | [] => []
  | c :: rest => ⟨c.1, pre c.1, c.2⟩ :: recsAux (Function.update pre c.1 c.2) rest

/-- The undo redo records created by a call sequence started from the
defaults. -/
def recs (cs : List (String × Int)) : List (UndoRedoItem Int) :=
  recsAux initNative cs

/-- Invariant tying a provenance state to a call sequence cs and an active
history length j: the ledger holds the records of cs, the cursor sits at j,
the native state is the one reached by the first j calls, the last-exec data
mirrors the native state (an absent entry reads as the default zero), and no
logging or replay is in flight. -/
structure SetterInv (cs : List (String × Int)) (j : Nat)
    (s : ProvState (String → Int) Int) : Prop where
  stack_eq : s.mUndoRedoStack = recs cs
  ptr_eq : s.mStackPointer = j
  j_le : j ≤ cs.length
  native_eq : s.native = natOf (cs.take j)
  mirror : ∀ f, (lookupLastExec s.lastExec f).getD 0 = s.native f
  log_false : s.mLoggingProvenance = false
  dis_false : s.mUndoRedoProvenanceDisable = false

/-- Invariant of states in the executing phase (no undos issued yet): the
cursor sits at the top of the ledger, the last-exec data mirrors the native
state, and no logging or replay is in flight. -/
structure CleanInv (s : ProvState (String → Int) Int) : Prop where
  ptr_eq : s.mStackPointer = s.mUndoRedoStack.length
  mirror : ∀ f, (lookupLastExec s.lastExec f).getD 0 = s.native f
  log_false : s.mLoggingProvenance = false
  dis_false : s.mUndoRedoProvenanceDisable = false

/-
  Marshaling model (LuaFunBinding.h, carried in src/Renderer/GL/GLRenderer.cpp).
  Lua values as the bindings observe them: primitives, and tables mapping
  primitive keys to primitive values with an optional metatable of named
  primitive fields.
-/

/-- A primitive Lua value. -/
inductive LuaPrim where
  | nil
  | boolean (b : Bool)
  | num (n : Int)
  | str (s : String)
deriving DecidableEq, Repr

/-- A Lua table as the bindings read it: association of primitive keys to
primitive values, plus an optional metatable of named fields. -/
structure LuaTableV where
  fields : List (LuaPrim × LuaPrim)
  meta : Option (List (String × LuaPrim))
deriving DecidableEq, Repr

/-- A Lua stack value observed by a binding. -/
inductive LuaVal where
  | prim (p : LuaPrim)
  | table (t : LuaTableV)
deriving DecidableEq, Repr

/-- lua_gettable on a table value: the value stored under the key, nil when
the key is absent. -/
def tableRawGet (fields : List (LuaPrim × LuaPrim)) (k : LuaPrim) : LuaPrim :=
  (((fields.find? (fun kv => kv.1 == k)).map (fun kv => kv.2))).getD LuaPrim.nil

/-- Errors of the marshaling layer: luaL_check failures on a value of the
wrong dynamic type. -/
inductive LuaMarshalErr where
  | typeError
deriving DecidableEq, Repr

/-- LuaStrictStack int get, that is luaL_checkint: succeeds on a number and
fails on any other dynamic type. -/
def checkInt : LuaPrim → Except LuaMarshalErr Int
  | LuaPrim.num n => Except.ok n
  | _ => Except.error LuaMarshalErr.typeError

/-- The while loop of the LuaStrictStack vector get specialization
(GLRenderer.cpp lines 2042 to 2072): reads table entries at integer keys
index, index plus one, and so on, stopping at the first nil, marshaling each
element through the int binding.  The loop visits a fresh integer key per
iteration and each non-nil hit consumes a distinct table entry, so a fuel of
one more than the number of entries is never exhausted; fuel zero returning
the empty list is unreachable from vectorGet. -/
def vectorGetLoop (fields : List (LuaPrim × LuaPrim)) :
    Nat → Int → Except LuaMarshalErr (List Int)
  | 0, _ => Except.ok []
  | fuel + 1, index =>
    match tableRawGet fields (LuaPrim.num index) with
    | LuaPrim.nil => Except.ok []
    | v =>
      match checkInt v with
      | Except.error e => Except.error e
      | Except.ok x =>
        match vectorGetLoop fields fuel (index + 1) with
        | Except.error e => Except.error e
        | Except.ok rest => Except.ok (x :: rest)

/-- LuaStrictStack vector get: luaL_checktype demands a table, then the
element loop runs from integer key one. -/
def vectorGet : LuaVal → Except LuaMarshalErr (List Int)
  | LuaVal.table t => vectorGetLoop t.fields (t.fields.length + 1) 1
  | _ => Except.error LuaMarshalErr.typeError

/-- The reserved instance id meaning no instance or already deleted.
LuaClassInstance.h is not under src; the value minus one is taken from the
LuaStrictStack LuaClassInstance getDefault in the sources, which returns
LuaClassInstance of minus one. -/
def DEFAULT_INSTANCE_ID : Int := -1

/-- An abstract handle to a registered class instance (class LuaClassInstance),
carrying the global instance id. -/
structure LuaClassInstance where
  globalID : Int
deriving DecidableEq, Repr

/-- The metatable field name under which the global instance id is stored
(MD_GLOBAL_INSTANCE_ID; its literal spelling lives in the missing
LuaClassInstance.h and is irrelevant to the properties proved here). -/
def MD_GLOBAL_INSTANCE_ID : String := "globalID"

/-- Errors of the class instance get binding: a LuaError when no class
metatable is found, a type error from luaL_checkinteger. -/
inductive LuaClassGetErr where
  | luaError
  | typeError
deriving DecidableEq, Repr

/-- LuaStrictStack LuaClassInstance get (GLRenderer.cpp lines 1887 to 1918):
nil resolves to the default instance id instead of failing; a table carrying
the marker field also resolves to the default id; otherwise the global id is
read from the class metatable, whose absence is a LuaError.  A non-nil
non-table value makes lua_getfield raise a Lua error. -/
def classGet : LuaVal → Except LuaClassGetErr LuaClassInstance
  | LuaVal.prim LuaPrim.nil => Except.ok ⟨DEFAULT_INSTANCE_ID⟩
  | LuaVal.table t =>
    match tableRawGet t.fields (LuaPrim.str ("_DefaultInstance_")) with
    | LuaPrim.nil =>
      match t.meta with
      | none => Except.error LuaClassGetErr.luaError
      | some meta =>
        match ((meta.find? (fun kv => kv.1 == MD_GLOBAL_INSTANCE_ID)).map
            (fun kv => kv.2)).getD LuaPrim.nil with
        | LuaPrim.num gid => Except.ok ⟨gid⟩
        | _ => Except.error LuaClassGetErr.typeError
    | _ => Except.ok ⟨DEFAULT_INSTANCE_ID⟩
  | _ => Except.error LuaClassGetErr.luaError

/-- The empty marker table the class instance push binding builds for a
deleted or default instance: a fresh table whose only content is the
_DefaultInstance_ field set to true. -/
def markerTable : LuaVal :=
  LuaVal.table ⟨[(LuaPrim.str ("_DefaultInstance_"), LuaPrim.boolean true)], none⟩

/-- LuaStrictStack LuaClassInstance push (GLRenderer.cpp lines 1920 to 1958).
The lookup of the instance table under the global class instance table is a
runtime lookup (performed through luaL_dostring against the scripting
environment, which is outside src), modelled as a function from ids to the
value found.  A live id resolves to its instance table; an id whose instance
table no longer exists, and the default id, are represented as the empty
marker table. -/
def classPush (instLookup : Int → LuaVal) (inst : LuaClassInstance) : LuaVal :=
  if inst.globalID ≠ DEFAULT_INSTANCE_ID then
    match instLookup inst.globalID with
    | LuaVal.prim LuaPrim.nil => markerTable
    | v => v
  else
    markerTable

/-
  Concrete instances used to evaluate the model on closed inputs.
-/

/-- A freshly constructed provenance state over an int native state. -/
def wStateEmpty : ProvState Int Int :=
  ⟨true, 0, false, true, false, [], 0, []⟩

/-- A state caught while logging, with the reentry exception enabled. -/
def wStateLogging : ProvState Int Int :=
  ⟨true, 0, true, true, false, [], 0, []⟩

/-- A state caught while logging, with the reentry exception disabled. -/
def wStateLoggingOff : ProvState Int Int :=
  ⟨true, 0, true, false, false, [], 0, []⟩

/-- A state holding one record with the cursor above it. -/
def wStateOne : ProvState Int Int :=
  ⟨true, 1, false, true, false, [⟨"g", 5, 7⟩], 7, [("g", 7)]⟩

/-- A state holding one record with the cursor below it. -/
def wStateRedoReady : ProvState Int Int :=
  ⟨true, 0, false, true, false, [⟨"g", 5, 7⟩], 5, [("g", 5)]⟩

/-- A state holding a record naming a function that is not registered, so
that replaying it fails. -/
def wStateStuck : ProvState Int Int :=
  ⟨true, 1, false, true, false, [⟨"ghost", 0, 0⟩], 0, []⟩

/-- A registry with no registered functions. -/
def wRegNone : LuaRegistry Int Int := fun _ => none

/-- A registered entry whose callable overwrites the int native state with
its parameter. -/
def wSetEntry : LuaFunEntry Int Int :=
  { apply := fun p _ => some p
    undoRedoStackExempt := false
    defaults := 0 }

/-- A registry resolving every name to the overwriting entry. -/
def wSetReg : LuaRegistry Int Int := fun _ => some wSetEntry

/-
  Helper lemmas.
-/

theorem lookupLastExec_nil {P : Type} (g : String) :
    lookupLastExec ([] : List (String × P)) g = none := by
  simp [lookupLastExec]

theorem lookupLastExec_cons {P : Type} (kv : String × P)
    (rest : List (String × P)) (g : String) :
    lookupLastExec (kv :: rest) g
      = if kv.1 = g then some kv.2 else lookupLastExec rest g := by
  by_cases h : kv.1 = g <;> simp [lookupLastExec, List.find?_cons, h]

theorem lookup_setLastExec_self {P : Type} (le : List (String × P)) (f : String)
    (p : P) : lookupLastExec (setLastExec le f p) f = some p := by
  induction le with
  | nil => simp [setLastExec, lookupLastExec_cons]
  | cons kv rest ih =>
    by_cases h : kv.1 = f
    · simp [setLastExec, h, lookupLastExec_cons]
    · simp [setLastExec, h, lookupLastExec_cons, ih]

theorem lookup_setLastExec_other {P : Type} (le : List (String × P))
    (f g : String) (p : P) (hg : g ≠ f) :
    lookupLastExec (setLastExec le f p) g = lookupLastExec le g := by
  induction le with
  | nil => simp [setLastExec, lookupLastExec_cons, lookupLastExec_nil, Ne.symm hg]
  | cons kv rest ih =>
    by_cases h : kv.1 = f
    · have hkg : ¬kv.1 = g := by rw [h]; exact Ne.symm hg
      simp [setLastExec, h, lookupLastExec_cons, Ne.symm hg, hkg]
    · by_cases hkg : kv.1 = g
      · simp [setLastExec, h, lookupLastExec_cons, hkg, hg]
      · simp [setLastExec, h, lookupLastExec_cons, hkg, ih]

theorem applyCalls_append (as bs : List (String × Int)) (t : String → Int) :
    applyCalls (as ++ bs) t = applyCalls bs (applyCalls as t) := by
  simp [applyCalls, List.foldl_append]

theorem applyCalls_cons (c : String × Int) (cs : List (String × Int))
    (t : String → Int) :
    applyCalls (c :: cs) t = applyCalls cs (Function.update t c.1 c.2) := by
  simp [applyCalls]

theorem applyCalls_take_succ (cs : List (String × Int)) (j : Nat)
    (c : String × Int) (h : cs[j]? = some c) (t : String → Int) :
    applyCalls (cs.take (j + 1)) t
      = Function.update (applyCalls (cs.take j) t) c.1 c.2 := by
  rw [List.take_succ, h]
  simp [applyCalls_append, applyCalls]

theorem update_update_self (t : String → Int) (f : String) (p : Int) :
    Function.update (Function.update t f p) f (t f) = t := by
  funext x
  by_cases h : x = f <;> simp [Function.update_apply, h]

theorem recsAux_length (pre : String → Int) (cs : List (String × Int)) :
    (recsAux pre cs).length = cs.length := by
  induction cs generalizing pre with
  | nil => simp [recsAux]
  | cons c rest ih => simp [recsAux, ih]

theorem recsAux_get (pre : String → Int) (cs : List (String × Int)) (j : Nat)
    (c : String × Int) (h : cs[j]? = some c) :
    (recsAux pre cs)[j]? = some ⟨c.1, applyCalls (cs.take j) pre c.1, c.2⟩ := by
  induction cs generalizing pre j with
  | nil => simp at h
  | cons d rest ih =>
    cases j with
    | zero =>
      simp at h
      subst h
      simp [recsAux, applyCalls]
    | succ j' =>
      simp only [List.getElem?_cons_succ] at h
      simp only [recsAux, List.getElem?_cons_succ]
      rw [ih (Function.update pre d.1 d.2) j' h]
      simp [applyCalls_cons]

theorem logExecution_nonexempt {S P : Type} (fname : String) (fp ep : P)
    (s : ProvState S P) (hlog : s.mLoggingProvenance = false)
    (hdis : s.mUndoRedoProvenanceDisable = false) :
    logExecution fname false fp ep s =
      ({ s with
          mUndoRedoStack := s.mUndoRedoStack.take s.mStackPointer ++
            [⟨fname, (lookupLastExec s.lastExec fname).getD ep, fp⟩],
          mStackPointer := s.mStackPointer + 1,
          lastExec := setLastExec s.lastExec fname fp }, none) := by
  simp [logExecution, hlog, hdis]

theorem logExecution_exempt {S P : Type} (fname : String) (fp ep : P)
    (s : ProvState S P) (hlog : s.mLoggingProvenance = false)
    (hdis : s.mUndoRedoProvenanceDisable = false) :
    logExecution fname true fp ep s = (s, none) := by
  simp [logExecution, hlog, hdis]

theorem execCall_setter (f : String) (p : Int)
    (s : ProvState (String → Int) Int) (hlog : s.mLoggingProvenance = false)
    (hdis : s.mUndoRedoProvenanceDisable = false) :
    execCall setterRegistry f p s =
      ({ s with
          native := Function.update s.native f p,
          mUndoRedoStack := s.mUndoRedoStack.take s.mStackPointer ++
            [⟨f, (lookupLastExec s.lastExec f).getD 0, p⟩],
          mStackPointer := s.mStackPointer + 1,
          lastExec := setLastExec s.lastExec f p }, none) := by
  simp [execCall, setterRegistry, logExecution, hlog, hdis]

theorem performUndoRedoOp_setter (f : String) (u : Int)
    (s : ProvState (String → Int) Int) (hlog : s.mLoggingProvenance = false) :
    performUndoRedoOp setterRegistry f u s =
      ({ s with
          native := Function.update s.native f u,
          mUndoRedoProvenanceDisable := false,
          lastExec := setLastExec s.lastExec f u }, none) := by
  simp [performUndoRedoOp, setterRegistry, logExecution, hlog]

theorem cleanInv_init : CleanInv initState := by
  refine ⟨rfl, ?_, rfl, rfl⟩
  intro f
  simp [initState, lookupLastExec_nil, initNative]

theorem execSeq_spec (cs : List (String × Int))
    (s : ProvState (String → Int) Int) (h : CleanInv s) :
    CleanInv (execSeq setterRegistry cs s)
    ∧ (execSeq setterRegistry cs s).mUndoRedoStack
        = s.mUndoRedoStack ++ recsAux s.native cs
    ∧ (execSeq setterRegistry cs s).mStackPointer
        = s.mStackPointer + cs.length
    ∧ (execSeq setterRegistry cs s).native = applyCalls cs s.native := by
  induction cs generalizing s with
  | nil => simpa [execSeq, recsAux, applyCalls] using h
  | cons c rest ih =>
    have hstep := execCall_setter c.1 c.2 s h.log_false h.dis_false
    have hu : (lookupLastExec s.lastExec c.1).getD 0 = s.native c.1 := h.mirror c.1
    set s1 := (execCall setterRegistry c.1 c.2 s).1 with hs1
    have hs1eq : s1 =
        { s with
          native := Function.update s.native c.1 c.2,
          mUndoRedoStack := s.mUndoRedoStack.take s.mStackPointer ++
            [⟨c.1, s.native c.1, c.2⟩],
          mStackPointer := s.mStackPointer + 1,
          lastExec := setLastExec s.lastExec c.1 c.2 } := by
      rw [hs1, hstep, hu]
    have htake : s.mUndoRedoStack.take s.mStackPointer = s.mUndoRedoStack := by
      rw [h.ptr_eq]
      simp
    have h1 : CleanInv s1 := by
      rw [hs1eq]
      refine ⟨?_, ?_, h.log_false, h.dis_false⟩
      · simp [htake, h.ptr_eq]
      · intro g
        by_cases hgc : g = c.1
        · subst hgc
          simp [lookup_setLastExec_self, Function.update_apply]
        · simp [lookup_setLastExec_other _ _ _ _ hgc,
            Function.update_apply, hgc, h.mirror g]
    have hrest := ih s1 h1
    have hexec : execSeq setterRegistry (c :: rest) s = execSeq setterRegistry rest s1 := by
      rw [execSeq, hs1]
    refine ⟨?_, ?_, ?_, ?_⟩
    · rw [hexec]; exact hrest.1
    · rw [hexec, hrest.2.1, hs1eq]
      simp [htake, recsAux]
    · rw [hexec, hrest.2.2.1, hs1eq]
      simp [Nat.add_assoc, Nat.add_comm 1 rest.length]
    · rw [hexec, hrest.2.2.2, hs1eq]
      simp [applyCalls_cons]

theorem setterInv_after_exec (cs : List (String × Int)) :
    SetterInv cs cs.length (execSeq setterRegistry cs initState) := by
  obtain ⟨hclean, hstack, hptr, hnat⟩ := execSeq_spec cs initState cleanInv_init
  refine ⟨?_, ?_, le_refl _, ?_, hclean.mirror, hclean.log_false, hclean.dis_false⟩
  · rw [hstack]; simp [initState, recs]
  · rw [hptr]; simp [initState]
  · rw [hnat]
    simp [initState, natOf, List.take_length]

theorem issueUndo_step (cs : List (String × Int)) (j : Nat)
    (s : ProvState (String → Int) Int) (h : SetterInv cs (j + 1) s) :
    (issueUndo setterRegistry s).2 = none
    ∧ SetterInv cs j (issueUndo setterRegistry s).1 := by
  have hjlt : j < cs.length := Nat.lt_of_succ_le h.j_le
  have hc : cs[j]? = some cs[j] := List.getElem?_eq_getElem hjlt
  have hrec : s.mUndoRedoStack[s.mStackPointer - 1]?
      = some ⟨cs[j].1, applyCalls (cs.take j) initNative cs[j].1, cs[j].2⟩ := by
    rw [h.stack_eq, h.ptr_eq]
    simpa [recs] using recsAux_get initNative cs j cs[j] hc
  have hne : s.mStackPointer ≠ 0 := by rw [h.ptr_eq]; exact Nat.succ_ne_zero j
  have hop := performUndoRedoOp_setter cs[j].1
    (applyCalls (cs.take j) initNative cs[j].1) s h.log_false
  have hnatm : Function.update s.native cs[j].1
      (applyCalls (cs.take j) initNative cs[j].1) = natOf (cs.take j) := by
    rw [h.native_eq, natOf, applyCalls_take_succ cs j cs[j] hc initNative]
    exact update_update_self (applyCalls (cs.take j) initNative) cs[j].1 cs[j].2
  have hres : issueUndo setterRegistry s =
      ({ s with
          native := natOf (cs.take j),
          mUndoRedoProvenanceDisable := false,
          mStackPointer := s.mStackPointer - 1,
          lastExec := setLastExec s.lastExec cs[j].1
            (applyCalls (cs.take j) initNative cs[j].1) }, none) := by
    rw [issueUndo, if_neg hne, hrec]
    simp only [hop, hnatm]
  rw [hres]
  refine ⟨rfl, h.stack_eq, ?_, Nat.le_of_lt hjlt, rfl, ?_, h.log_false, rfl⟩
  · simp [h.ptr_eq]
  · intro g
    by_cases hgc : g = cs[j].1
    · subst hgc
      rw [lookup_setLastExec_self]
      simp [natOf, applyCalls_take_succ cs j cs[j] hc initNative,
        Function.update_apply]
    · rw [lookup_setLastExec_other _ _ _ _ hgc, h.mirror g, h.native_eq, natOf,
        applyCalls_take_succ cs j cs[j] hc initNative,
        Function.update_apply, if_neg hgc]
      rfl

theorem issueRedo_step (cs : List (String × Int)) (j : Nat)
    (s : ProvState (String → Int) Int) (h : SetterInv cs j s)
    (hjlt : j < cs.length) :
    (issueRedo setterRegistry s).2 = none
    ∧ SetterInv cs (j + 1) (issueRedo setterRegistry s).1 := by
  have hc : cs[j]? = some cs[j] := List.getElem?_eq_getElem hjlt
  have hlen : s.mUndoRedoStack.length = cs.length := by
    rw [h.stack_eq, recs, recsAux_length]
  have hne : s.mStackPointer ≠ s.mUndoRedoStack.length := by
    rw [h.ptr_eq, hlen]
    exact Nat.ne_of_lt hjlt
  have hrec : s.mUndoRedoStack[s.mStackPointer]?
      = some ⟨cs[j].1, applyCalls (cs.take j) initNative cs[j].1, cs[j].2⟩ := by
    rw [h.stack_eq, h.ptr_eq]
    simpa [recs] using recsAux_get initNative cs j cs[j] hc
  have hop := performUndoRedoOp_setter cs[j].1 cs[j].2 s h.log_false
  have hnatm : Function.update s.native cs[j].1 cs[j].2
      = natOf (cs.take (j + 1)) := by
    rw [h.native_eq, natOf, natOf, applyCalls_take_succ cs j cs[j] hc initNative]
  have hres : issueRedo setterRegistry s =
      ({ s with
          native := natOf (cs.take (j + 1)),
          mUndoRedoProvenanceDisable := false,
          mStackPointer := s.mStackPointer + 1,
          lastExec := setLastExec s.lastExec cs[j].1 cs[j].2 }, none) := by
    rw [issueRedo, if_neg hne, hrec]
    simp only [hop, hnatm]
  rw [hres]
  refine ⟨rfl, h.stack_eq, ?_, hjlt, rfl, ?_, h.log_false, rfl⟩
  · simp [h.ptr_eq]
  · intro g
    by_cases hgc : g = cs[j].1
    · subst hgc
      rw [lookup_setLastExec_self]
      simp [natOf, applyCalls_take_succ cs j cs[j] hc initNative,
        Function.update_apply]
    · rw [lookup_setLastExec_other _ _ _ _ hgc, h.mirror g, h.native_eq]
      show natOf (cs.take j) g = natOf (cs.take (j + 1)) g
      rw [natOf, natOf, applyCalls_take_succ cs j cs[j] hc initNative,
        Function.update_apply, if_neg hgc]

theorem undoTimes_inv (cs : List (String × Int)) (k j : Nat)
    (s : ProvState (String → Int) Int) (h : SetterInv cs (k + j) s) :
    SetterInv cs j (undoTimes setterRegistry k s) := by
  induction k generalizing s with
  | zero => simpa [undoTimes] using h
  | succ k' ih =>
    have h' : SetterInv cs (k' + j + 1) s := by
      have : k' + 1 + j = k' + j + 1 := by omega
      rwa [this] at h
    have hstep := issueUndo_step cs (k' + j) s h'
    have : undoTimes setterRegistry (k' + 1) s
        = undoTimes setterRegistry k' (issueUndo setterRegistry s).1 := rfl
    rw [this]
    exact ih _ hstep.2

theorem logExecution_state_of_disabled {S P : Type} (f : String) (ex : Bool)
    (fp ep : P) (s : ProvState S P)
    (hdis : s.mUndoRedoProvenanceDisable = true) :
    (logExecution f ex fp ep s).1 = s := by
  by_cases hlog : s.mLoggingProvenance <;>
    by_cases hre : s.mDoProvReenterException <;>
      simp [logExecution, hlog, hre, hdis]

theorem performUndoRedoOp_lastExec {S P : Type} (R : LuaRegistry S P)
    (f : String) (p : P) (s : ProvState S P)
    (hsucc : (performUndoRedoOp R f p s).2 = none) :
    lookupLastExec (performUndoRedoOp R f p s).1.lastExec f = some p := by
  cases hR : R f with
  | none => simp [performUndoRedoOp, hR] at hsucc
  | some entry =>
    cases happ : entry.apply p s.native with
    | none => simp [performUndoRedoOp, hR, happ] at hsucc
    | some nat2 =>
      cases he : (logExecution f entry.undoRedoStackExempt p entry.defaults
          { s with mUndoRedoProvenanceDisable := true, native := nat2 }).2 with
      | some e => simp [performUndoRedoOp, hR, happ, he] at hsucc
      | none =>
        simp [performUndoRedoOp, hR, happ, he, lookup_setLastExec_self]

theorem performUndoRedoOp_ptr {S P : Type} (R : LuaRegistry S P)
    (f : String) (p : P) (s : ProvState S P) :
    (performUndoRedoOp R f p s).1.mStackPointer = s.mStackPointer := by
  cases hR : R f with
  | none => simp [performUndoRedoOp, hR]
  | some entry =>
    cases happ : entry.apply p s.native with
    | none => simp [performUndoRedoOp, hR, happ]
    | some nat2 =>
      have hst := logExecution_state_of_disabled f entry.undoRedoStackExempt p
        entry.defaults { s with mUndoRedoProvenanceDisable := true, native := nat2 }
        rfl
      cases he : (logExecution f entry.undoRedoStackExempt p entry.defaults
          { s with mUndoRedoProvenanceDisable := true, native := nat2 }).2 with
      | some e => simp [performUndoRedoOp, hR, happ, he, hst]
      | none => simp [performUndoRedoOp, hR, happ, he, hst]

/-
  Claim theorems.
-/

/-- Claim C1 (history linearity): for every sequence of N non-exempt logged
calls of registered mutators followed by K at most N undos, the observable
native state equals the state reached by executing only the first N minus K
calls. -/
theorem history_linearity (cs : List (String × Int)) (K : Nat)
    (hK : K ≤ cs.length) :
    (undoTimes setterRegistry K (execSeq setterRegistry cs initState)).native
      = (execSeq setterRegistry (cs.take (cs.length - K)) initState).native := by
  have h1 : SetterInv cs (cs.length - K)
      (undoTimes setterRegistry K (execSeq setterRegistry cs initState)) := by
    apply undoTimes_inv
    rw [Nat.add_sub_cancel' hK]
    exact setterInv_after_exec cs
  have h2 := (execSeq_spec (cs.take (cs.length - K)) initState cleanInv_init).2.2.2
  rw [h1.native_eq, h2]
  rfl

theorem history_linearity_witness :
    (2 : Nat) ≤ ([(("a" : String), (1 : Int)), ("a", 2), ("b", 10)]).length
    ∧ (undoTimes setterRegistry 2
        (execSeq setterRegistry [(("a" : String), (1 : Int)), ("a", 2), ("b", 10)]
          initState)).native
      = (execSeq setterRegistry
          (([(("a" : String), (1 : Int)), ("a", 2), ("b", 10)]).take
            (([(("a" : String), (1 : Int)), ("a", 2), ("b", 10)]).length - 2))
          initState).native :=
  ⟨by decide, history_linearity ([(("a" : String), (1 : Int)), ("a", 2), ("b", 10)]) 2 (by decide)⟩

/-- Claim C2 (branch truncation): logging a new non-exempt call discards
every record at or past the cursor, appends the new record and advances the
cursor by one; consequently, after M undos from an executed sequence
followed by one new non-exempt call, the cursor equals the ledger length
again and issueRedo fails with the invalid redo error. -/
theorem branch_truncation :
    (∀ (S P : Type) (s : ProvState S P) (f : String) (fp ep : P),
        s.mLoggingProvenance = false → s.mUndoRedoProvenanceDisable = false →
        (logExecution f false fp ep s).1.mUndoRedoStack
            = s.mUndoRedoStack.take s.mStackPointer
              ++ [⟨f, (lookupLastExec s.lastExec f).getD ep, fp⟩]
          ∧ (logExecution f false fp ep s).1.mStackPointer = s.mStackPointer + 1
          ∧ (logExecution f false fp ep s).2 = none)
    ∧ (∀ (cs : List (String × Int)) (M : Nat) (c : String × Int),
        1 ≤ M → M ≤ cs.length →
        (execCall setterRegistry c.1 c.2
            (undoTimes setterRegistry M
              (execSeq setterRegistry cs initState))).1.mStackPointer
          = (execCall setterRegistry c.1 c.2
              (undoTimes setterRegistry M
                (execSeq setterRegistry cs initState))).1.mUndoRedoStack.length
        ∧ (issueRedo setterRegistry
            (execCall setterRegistry c.1 c.2
              (undoTimes setterRegistry M
                (execSeq setterRegistry cs initState))).1).2
          = some LuaErr.invalidRedo) := by
  constructor
  · intro S P s f fp ep hlog hdis
    rw [logExecution_nonexempt f fp ep s hlog hdis]
    exact ⟨rfl, rfl, rfl⟩
  · intro cs M c h1 hM
    have hinv : SetterInv cs (cs.length - M)
        (undoTimes setterRegistry M (execSeq setterRegistry cs initState)) := by
      apply undoTimes_inv
      rw [Nat.add_sub_cancel' hM]
      exact setterInv_after_exec cs
    have hstep := execCall_setter c.1 c.2
      (undoTimes setterRegistry M (execSeq setterRegistry cs initState))
      hinv.log_false hinv.dis_false
    have hlen : ((undoTimes setterRegistry M
        (execSeq setterRegistry cs initState)).mUndoRedoStack.take
          (undoTimes setterRegistry M
            (execSeq setterRegistry cs initState)).mStackPointer).length
        = cs.length - M := by
      rw [hinv.ptr_eq, hinv.stack_eq, List.length_take, recs, recsAux_length]
      exact Nat.min_eq_left (Nat.sub_le cs.length M)
    have hslen : (undoTimes setterRegistry M
        (execSeq setterRegistry cs initState)).mUndoRedoStack.length
        = cs.length := by
      rw [hinv.stack_eq, recs, recsAux_length]
    have hEq : (execCall setterRegistry c.1 c.2
        (undoTimes setterRegistry M
          (execSeq setterRegistry cs initState))).1.mStackPointer
        = (execCall setterRegistry c.1 c.2
            (undoTimes setterRegistry M
              (execSeq setterRegistry cs initState))).1.mUndoRedoStack.length := by
      rw [hstep]
      simp only [List.length_append, List.length_cons, List.length_nil,
        List.length_take, hslen, hinv.ptr_eq]
      omega
    refine ⟨hEq, ?_⟩
    rw [issueRedo, if_pos hEq]

theorem branch_truncation_witness :
    ((logExecution ("h") false (3 : Int) (0 : Int) wStateOne).1.mUndoRedoStack
        = wStateOne.mUndoRedoStack.take wStateOne.mStackPointer
          ++ [⟨"h", (lookupLastExec wStateOne.lastExec ("h")).getD 0, 3⟩]
      ∧ (logExecution ("h") false (3 : Int) (0 : Int) wStateOne).1.mStackPointer
        = wStateOne.mStackPointer + 1
      ∧ (logExecution ("h") false (3 : Int) (0 : Int) wStateOne).2 = none)
    ∧ ((execCall setterRegistry ("a") (5 : Int)
          (undoTimes setterRegistry 1
            (execSeq setterRegistry [(("a" : String), (1 : Int)), ("b", 2)]
              initState))).1.mStackPointer
        = (execCall setterRegistry ("a") (5 : Int)
            (undoTimes setterRegistry 1
              (execSeq setterRegistry [(("a" : String), (1 : Int)), ("b", 2)]
                initState))).1.mUndoRedoStack.length
      ∧ (issueRedo setterRegistry
          (execCall setterRegistry ("a") (5 : Int)
            (undoTimes setterRegistry 1
              (execSeq setterRegistry [(("a" : String), (1 : Int)), ("b", 2)]
                initState))).1).2
        = some LuaErr.invalidRedo) :=
  ⟨branch_truncation.1 Int Int wStateOne ("h") 3 0 rfl rfl,
   branch_truncation.2 ([(("a" : String), (1 : Int)), ("b", 2)]) 1 (("a"), (5 : Int))
     (by decide) (by decide)⟩

/-- Claim C3, counterexample: the five provenance management entry points
are not all registered as exempt, since provenance.enableReentryException is
registered without the exemption. -/
theorem provenance_exempt_counterexample :
    (("provenance.enableReentryException", false) ∈ registerLuaProvenanceFunctions)
    ∧ ¬(∀ p ∈ registerLuaProvenanceFunctions, p.2 = true) := by
  decide

/-- Claim C3, amended: of the five provenance management entry points
registered with the scripting runtime, provenance.undo, provenance.redo,
provenance.enable and provenance.clear are registered as exempt, while
provenance.enableReentryException is registered without the exemption. -/
theorem provenance_exempt_registrations :
    registerLuaProvenanceFunctions.length = 5
    ∧ (("provenance.undo", true) ∈ registerLuaProvenanceFunctions)
    ∧ (("provenance.redo", true) ∈ registerLuaProvenanceFunctions)
    ∧ (("provenance.enable", true) ∈ registerLuaProvenanceFunctions)
    ∧ (("provenance.clear", true) ∈ registerLuaProvenanceFunctions)
    ∧ (("provenance.enableReentryException", false)
        ∈ registerLuaProvenanceFunctions) := by
  decide

/-- Claim C4 (reentry policy): when a non-exempt logged call reaches the
ledger while it is already in the logging state, the call fails with the
reentry error and leaves the whole state unmodified when the reentry
exception mode is on, and returns silently with no record created when the
mode is off. -/
theorem reentry_policy (S P : Type) (s : ProvState S P) (f : String)
    (fp ep : P) (hlog : s.mLoggingProvenance = true) :
    (s.mDoProvReenterException = true →
        logExecution f false fp ep s = (s, some LuaErr.reenter))
    ∧ (s.mDoProvReenterException = false →
        logExecution f false fp ep s = (s, none)) := by
  constructor <;> intro h <;> simp [logExecution, hlog, h]

theorem reentry_policy_witness :
    logExecution ("f") false (1 : Int) (0 : Int) wStateLogging
        = (wStateLogging, some LuaErr.reenter)
    ∧ logExecution ("f") false (1 : Int) (0 : Int) wStateLoggingOff
        = (wStateLoggingOff, none) :=
  ⟨(reentry_policy Int Int wStateLogging ("f") 1 0 rfl).1 rfl,
   (reentry_policy Int Int wStateLoggingOff ("f") 1 0 rfl).2 rfl⟩

/-- Claim C5 (boundary violations): issueUndo with the cursor at zero fails
with the invalid undo error, issueRedo with the cursor at the ledger length
fails with the invalid redo error, and in both cases the returned state is
the input state, so the record sequence and the cursor are unchanged. -/
theorem boundary_violation (S P : Type) (R : LuaRegistry S P)
    (s : ProvState S P) :
    (s.mStackPointer = 0 → issueUndo R s = (s, some LuaErr.invalidUndo))
    ∧ (s.mStackPointer = s.mUndoRedoStack.length →
        issueRedo R s = (s, some LuaErr.invalidRedo)) := by
  constructor <;> intro h
  · simp [issueUndo, h]
  · simp [issueRedo, h]

theorem boundary_violation_witness :
    issueUndo wRegNone wStateEmpty = (wStateEmpty, some LuaErr.invalidUndo)
    ∧ issueRedo wRegNone wStateEmpty = (wStateEmpty, some LuaErr.invalidRedo) :=
  ⟨(boundary_violation Int Int wRegNone wStateEmpty).1 rfl,
   (boundary_violation Int Int wRegNone wStateEmpty).2 rfl⟩

/-- Claim C6 (redo round-trip): from any state reached by executing a call
sequence and undoing K of its calls, with at least one record still active,
performing issueUndo and then issueRedo succeeds and restores the observable
native state and the cursor that held immediately before the undo. -/
theorem undo_redo_roundtrip (cs : List (String × Int)) (K : Nat)
    (hK : K < cs.length) :
    (issueUndo setterRegistry
        (undoTimes setterRegistry K (execSeq setterRegistry cs initState))).2
      = none
    ∧ (issueRedo setterRegistry
        (issueUndo setterRegistry
          (undoTimes setterRegistry K (execSeq setterRegistry cs initState))).1).2
      = none
    ∧ (issueRedo setterRegistry
        (issueUndo setterRegistry
          (undoTimes setterRegistry K (execSeq setterRegistry cs initState))).1).1.native
      = (undoTimes setterRegistry K (execSeq setterRegistry cs initState)).native
    ∧ (issueRedo setterRegistry
        (issueUndo setterRegistry
          (undoTimes setterRegistry K (execSeq setterRegistry cs initState))).1).1.mStackPointer
      = (undoTimes setterRegistry K
          (execSeq setterRegistry cs initState)).mStackPointer := by
  have h1 : SetterInv cs (cs.length - K)
      (undoTimes setterRegistry K (execSeq setterRegistry cs initState)) := by
    apply undoTimes_inv
    rw [Nat.add_sub_cancel' (Nat.le_of_lt hK)]
    exact setterInv_after_exec cs
  have hj : cs.length - K = (cs.length - K - 1) + 1 := by omega
  have h1' : SetterInv cs ((cs.length - K - 1) + 1)
      (undoTimes setterRegistry K (execSeq setterRegistry cs initState)) := by
    rwa [hj] at h1
  have hu := issueUndo_step cs (cs.length - K - 1) _ h1'
  have hjlt : cs.length - K - 1 < cs.length := by omega
  have hr := issueRedo_step cs (cs.length - K - 1) _ hu.2 hjlt
  refine ⟨hu.1, hr.1, ?_, ?_⟩
  · rw [hr.2.native_eq, h1.native_eq]
    have harith : cs.length - K - 1 + 1 = cs.length - K := by omega
    rw [harith]
  · rw [hr.2.ptr_eq, h1.ptr_eq]
    omega

theorem undo_redo_roundtrip_witness :
    (issueUndo setterRegistry
        (undoTimes setterRegistry 0
          (execSeq setterRegistry [(("a" : String), (1 : Int)), ("b", 2)] initState))).2
      = none
    ∧ (issueRedo setterRegistry
        (issueUndo setterRegistry
          (undoTimes setterRegistry 0
            (execSeq setterRegistry [(("a" : String), (1 : Int)), ("b", 2)]
              initState))).1).2
      = none
    ∧ (issueRedo setterRegistry
        (issueUndo setterRegistry
          (undoTimes setterRegistry 0
            (execSeq setterRegistry [(("a" : String), (1 : Int)), ("b", 2)]
              initState))).1).1.native
      = (undoTimes setterRegistry 0
          (execSeq setterRegistry [(("a" : String), (1 : Int)), ("b", 2)]
            initState)).native
    ∧ (issueRedo setterRegistry
        (issueUndo setterRegistry
          (undoTimes setterRegistry 0
            (execSeq setterRegistry [(("a" : String), (1 : Int)), ("b", 2)]
              initState))).1).1.mStackPointer
      = (undoTimes setterRegistry 0
          (execSeq setterRegistry [(("a" : String), (1 : Int)), ("b", 2)]
            initState)).mStackPointer :=
  undo_redo_roundtrip ([(("a" : String), (1 : Int)), ("b", 2)]) 0 (by decide)

/-- Claim C7 (last-executed snapshot): after every successful invocation of
a registered non-exempt function, whether issued directly, by issueUndo or
by issueRedo, the last-executed-parameter snapshot of that function equals
the parameters the invocation was actually executed with: the call
parameters for direct execution, the undo snapshot for an undo, the redo
snapshot for a redo. -/
theorem lastExec_reflects_execution (S P : Type) (R : LuaRegistry S P)
    (s : ProvState S P) :
    (∀ (f : String) (e : LuaFunEntry S P) (p : P),
        R f = some e → e.undoRedoStackExempt = false →
        s.mLoggingProvenance = false → s.mUndoRedoProvenanceDisable = false →
        (execCall R f p s).2 = none →
        lookupLastExec (execCall R f p s).1.lastExec f = some p)
    ∧ (∀ item : UndoRedoItem P,
        s.mUndoRedoStack[s.mStackPointer - 1]? = some item →
        (issueUndo R s).2 = none →
        lookupLastExec (issueUndo R s).1.lastExec item.function
          = some item.undoParams)
    ∧ (∀ item : UndoRedoItem P,
        s.mUndoRedoStack[s.mStackPointer]? = some item →
        (issueRedo R s).2 = none →
        lookupLastExec (issueRedo R s).1.lastExec item.function
          = some item.redoParams) := by
  refine ⟨?_, ?_, ?_⟩
  · intro f e p hR hex hlog hdis hsucc
    cases happ : e.apply p s.native with
    | none => simp [execCall, hR, happ] at hsucc
    | some nat2 =>
      have hstep := logExecution_nonexempt f p e.defaults
        ({ s with native := nat2 }) hlog hdis
      simp [execCall, hR, happ, hex, hstep, lookup_setLastExec_self]
  · intro item hitem hsucc
    by_cases h0 : s.mStackPointer = 0
    · simp [issueUndo, h0] at hsucc
    · cases hPop : performUndoRedoOp R item.function item.undoParams s with
      | mk s1 err =>
        have hple := performUndoRedoOp_lastExec R item.function item.undoParams s
        rcases err with _ | x
        · have h2 : (performUndoRedoOp R item.function item.undoParams s).2 = none := by
            rw [hPop]
          have h3 := hple h2
          rw [hPop] at h3
          simpa [issueUndo, h0, hitem, hPop] using h3
        · cases x <;> simp [issueUndo, h0, hitem, hPop] at hsucc
  · intro item hitem hsucc
    by_cases h0 : s.mStackPointer = s.mUndoRedoStack.length
    · simp [issueRedo, h0] at hsucc
    · cases hPop : performUndoRedoOp R item.function item.redoParams s with
      | mk s1 err =>
        have hple := performUndoRedoOp_lastExec R item.function item.redoParams s
        rcases err with _ | x
        · have h2 : (performUndoRedoOp R item.function item.redoParams s).2 = none := by
            rw [hPop]
          have h3 := hple h2
          rw [hPop] at h3
          simpa [issueRedo, h0, hitem, hPop] using h3
        · cases x <;> simp [issueRedo, h0, hitem, hPop] at hsucc

theorem lastExec_reflects_execution_witness :
    lookupLastExec (execCall wSetReg ("g") (9 : Int) wStateEmpty).1.lastExec ("g")
      = some 9
    ∧ lookupLastExec (issueUndo wSetReg wStateOne).1.lastExec ("g") = some 5
    ∧ lookupLastExec (issueRedo wSetReg wStateRedoReady).1.lastExec ("g")
      = some 7 :=
  ⟨(lastExec_reflects_execution Int Int wSetReg wStateEmpty).1 ("g") wSetEntry 9
      rfl rfl rfl rfl rfl,
   (lastExec_reflects_execution Int Int wSetReg wStateOne).2.1 ⟨"g", 5, 7⟩ rfl rfl,
   (lastExec_reflects_execution Int Int wSetReg wStateRedoReady).2.2 ⟨"g", 5, 7⟩
      rfl rfl⟩

/-- Claim C8 (sequence truncation): the vector binding reads table elements
at integer keys one, two, three and so on and stops at the first missing
key, so a table whose integer keys are one and three marshals without error
to the one-element sequence holding the value at key one. -/
theorem sequence_truncation (v1 v3 : Int) :
    vectorGet (LuaVal.table
        ⟨[(LuaPrim.num 1, LuaPrim.num v1), (LuaPrim.num 3, LuaPrim.num v3)],
          none⟩)
      = Except.ok [v1] := rfl

/-- Claim C9 (object handle sentinel): the class instance binding resolves a
nil value on read to the sentinel no-instance handle instead of failing, and
on write represents an instance whose handle is the sentinel, or whose
instance table no longer exists, as the empty marker table rather than a
live instance reference. -/
theorem object_handle_sentinel :
    classGet (LuaVal.prim LuaPrim.nil) = Except.ok ⟨DEFAULT_INSTANCE_ID⟩
    ∧ (∀ instLookup : Int → LuaVal,
        classPush instLookup ⟨DEFAULT_INSTANCE_ID⟩ = markerTable)
    ∧ (∀ (instLookup : Int → LuaVal) (gid : Int),
        gid ≠ DEFAULT_INSTANCE_ID →
        instLookup gid = LuaVal.prim LuaPrim.nil →
        classPush instLookup ⟨gid⟩ = markerTable) := by
  refine ⟨rfl, ?_, ?_⟩
  · intro il
    simp [classPush]
  · intro il gid hne hnil
    simp [classPush, hne, hnil]

theorem object_handle_sentinel_witness :
    classPush (fun _ => LuaVal.prim LuaPrim.nil) ⟨5⟩ = markerTable :=
  object_handle_sentinel.2.2 (fun _ => LuaVal.prim LuaPrim.nil) 5 (by decide) rfl

/-- Claim C10 (failed replay preserves the cursor): whenever issueUndo or
issueRedo reports an error, including a failure of the replayed call wrapped
as the invalid undo or invalid redo error, the ledger cursor keeps its
pre-call value, because the cursor update is only reached after a successful
replay. -/
theorem replay_failure_preserves_cursor (S P : Type) (R : LuaRegistry S P)
    (s : ProvState S P) :
    ((issueUndo R s).2.isSome →
        (issueUndo R s).1.mStackPointer = s.mStackPointer)
    ∧ ((issueRedo R s).2.isSome →
        (issueRedo R s).1.mStackPointer = s.mStackPointer) := by
  constructor
  · intro hsome
    by_cases h0 : s.mStackPointer = 0
    · simp [issueUndo, h0]
    · cases hitem : s.mUndoRedoStack[s.mStackPointer - 1]? with
      | none => simp [issueUndo, h0, hitem]
      | some item =>
        have hptr := performUndoRedoOp_ptr R item.function item.undoParams s
        cases hPop : performUndoRedoOp R item.function item.undoParams s with
        | mk s1 err =>
          rw [hPop] at hptr
          have hptr2 : s1.mStackPointer = s.mStackPointer := hptr
          rcases err with _ | x
          · simp [issueUndo, h0, hitem, hPop] at hsome
          · cases x <;> simp [issueUndo, h0, hitem, hPop, hptr2]
  · intro hsome
    by_cases h0 : s.mStackPointer = s.mUndoRedoStack.length
    · simp [issueRedo, h0]
    · cases hitem : s.mUndoRedoStack[s.mStackPointer]? with
      | none => simp [issueRedo, h0, hitem]
      | some item =>
        have hptr := performUndoRedoOp_ptr R item.function item.redoParams s
        cases hPop : performUndoRedoOp R item.function item.redoParams s with
        | mk s1 err =>
          rw [hPop] at hptr
          have hptr2 : s1.mStackPointer = s.mStackPointer := hptr
          rcases err with _ | x
          · simp [issueRedo, h0, hitem, hPop] at hsome
          · cases x <;> simp [issueRedo, h0, hitem, hPop, hptr2]

theorem replay_failure_preserves_cursor_witness :
    (issueUndo wRegNone wStateStuck).1.mStackPointer
      = wStateStuck.mStackPointer :=
  (replay_failure_preserves_cursor Int Int wRegNone wStateStuck).1 rfl

end Tuvok
